import Mathlib

/-!
Verification development for the rewrite-propagation core of the `jj`
version-control CLI: the `split` command (`cli/src/commands/split.rs`,
function `cmd_split`) and the git colocation commands
(`cli/src/commands/git/colocate.rs`, functions
`enable_repository_colocation` and `disable_repository_colocation`).

The embedding is shallow: commits, trees and views are modelled as plain
data; the interactive collaborators (diff selector, description editor,
settings lookups) and the content-addressed store are modelled as inputs
supplied in an environment record, exactly as the spec treats them
(external collaborators, §6).  The library-side cascade machinery
(`MutableRepo::transform_descendants`, `CommitRewriter::replace_parent`,
rewrite records) is part of this repository but not under `src/`; those
definitions are modelled from the spec and are marked as such in their
doc comments.
-/

set_option autoImplicit false

namespace JJSpec

abbrev CommitId := Nat
abbrev ChangeId := Nat
abbrev TreeId := Nat
abbrev WorkspaceId := String
abbrev IoErr := String

/-- Commit data model (spec §3): ordered parent list, tree id, change id
and free-text description.  The commit id stands for the content hash. -/
structure Commit where
  id : CommitId
  parents : List CommitId
  tree : TreeId
  changeId : ChangeId
  description : String
deriving DecidableEq

/-- Command errors, mirroring the `command_error` constructors used by
`split.rs` and `colocate.rs`: `user_error`, `user_error_with_hint` and
`user_error_with_message`. -/
inductive CommandError where
  | userError (msg : String)
  | userErrorWithHint (msg hint : String)
  | userErrorWithMessage (msg source : String)
deriving DecidableEq

/-- Warnings emitted by `cmd_split` through `ui.warning_default()`. -/
inductive Warning where
  | secondWillBeEmpty
  | firstWillBeEmpty
deriving DecidableEq

/-- View-mutating operations performed inside the split transaction, in
the order the code performs them.  Used to state temporal claims. -/
inductive Event where
  | writeCommit (c : CommitId)
  | setRewritten (oldId newId : CommitId)
  | rebaseDescendant (oldId newId : CommitId)
  | editWorkingCopy (ws : WorkspaceId) (c : CommitId)
  | finishTx
deriving DecidableEq

/-- Rewrite records (spec §3): ephemeral pairing from an old commit id to
the commit ids it was rewritten to, consumed by the cascade. -/
abbrev Remap := List (CommitId × List CommitId)

/-- Lookup in the rewrite-record table.  A consed entry shadows an older
entry for the same key, which models `set_rewritten_commit` replacing a
previous record for the same source commit. -/
def remapLookup : Remap → CommitId → Option (List CommitId)
  | [], _ => none
  | (k, v) :: rest, p => if p = k then some v else remapLookup rest p

/-- Modelled from the spec: `CommitRewriter::replace_parent` of the
Commit Rewriter (spec §4.2), which is not under `src/`.  It replaces
every parent that equals the given old parent with the given list,
supporting one-to-many edges, and keeps all other parents. -/
def replaceParent (ps : List CommitId) (oldP : CommitId) (news : List CommitId) : List CommitId :=
  ps.flatMap fun p => if p = oldP then news else [p]

/-- Modelled from the spec: the Descendant Cascade Engine (spec §4.3)
maps each parent reference of a visited descendant through the
accumulated rewrite records before the split-specific `replace_parent`
calls run.  A parent with no record is kept unchanged. -/
def mapParents (m : Remap) (ps : List CommitId) : List CommitId :=
  ps.flatMap fun p => (remapLookup m p).getD [p]

/-- The three `replace_parent` calls of the `transform_descendants`
callback in `cmd_split` (split.rs lines 214-222): when `parallel` and
the legacy bookmark behavior are both set, the replacement is anchored on
the second commit (the old commit resolves to it through the legacy
rewrite record); when only `parallel` is set it is anchored on the first
commit; otherwise the first commit is replaced by the second alone. -/
def applyReplace (par leg : Bool) (f s : CommitId) (l : List CommitId) : List CommitId :=
  if par && leg then replaceParent l s [f, s]
  else if par then replaceParent l f [f, s]
  else replaceParent l f [s]

/-- New parent list of one visited descendant: parents mapped through the
rewrite records, then the split-specific replacement. -/
def newParentsFor (par leg : Bool) (f s : CommitId) (m : Remap) (ps : List CommitId) : List CommitId :=
  applyReplace par leg f s (mapParents m ps)

/-- One cascade visit: rewrite the descendant with its new parent list
and its freshly minted commit id. -/
def cascadeRewrite (par leg : Bool) (f s : CommitId) (m : Remap) (d : Commit) (nid : CommitId) : Commit :=
  { d with id := nid, parents := newParentsFor par leg f s m d.parents }

/-- Modelled from the spec: the topological walk of
`MutableRepo::transform_descendants` (spec §4.3), which is not under
`src/`.  The descendants arrive already ordered parents-before-children;
each visit rewrites one descendant and extends the rewrite records so
multi-level cascades chain correctly.  Returns the list of
(old, rewritten) pairs and the final record table. -/
def runCascade (par leg : Bool) (f s : CommitId) :
    Remap → List (Commit × CommitId) → List (Commit × Commit) × Remap
  | m, [] => ([], m)
  | m, (d, nid) :: rest =>
    let d2 := cascadeRewrite par leg f s m d nid
    let out := runCascade par leg f s ((d.id, [d2.id]) :: m) rest
    ((d, d2) :: out.1, out.2)

/-- Environment of one `cmd_split` invocation: the resolved target
commit, its parent tree (`target_commit.parent_tree`, which is also what
the `is_empty` check compares against), the verdict of
`check_rewritable`, the results of the external collaborators (diff
selector, description editor, settings), the store's tree-merge
primitive, the freshly minted ids the content-addressed store assigns to
new commits, the target's descendants in parent-before-child order, and
the per-workspace working-copy pointers of the pre-transaction view. -/
structure SplitEnv where
  target : Commit
  baseTree : TreeId
  rewritable : Bool
  selectedTree : TreeId
  mergeFn : TreeId → TreeId → TreeId → TreeId
  defaultDescription : String
  firstDescEdited : String
  secondDescEdited : String
  parallel : Bool
  legacyBookmarkBehavior : Bool
  freshFirstId : CommitId
  freshSecondId : CommitId
  freshChangeId : ChangeId
  descendants : List Commit
  freshDescIds : List CommitId
  wcCommitIds : List (WorkspaceId × CommitId)

/-- Everything `cmd_split` produced by the time `tx.finish` runs: the two
new commits, the emitted warnings, whether a description prompt was
issued for the second commit, the rewritten descendants, the rebased
count, the working-copy pointers after redirection, and the ordered log
of view-mutating events. -/
structure SplitOutcome where
  first : Commit
  second : Commit
  warnings : List Warning
  secondPromptIssued : Bool
  rebased : List (Commit × Commit)
  numRebased : Nat
  wcAfter : List (WorkspaceId × CommitId)
  events : List Event
deriving DecidableEq

/-- The body of `cmd_split` after the fail-fast checks succeed
(split.rs lines 98-244), step by step in source order:

* warn when the selection equals the end tree or the base tree
  (lines 127-139);
* first commit: the target rewritten with the selected tree, keeping the
  target's change id; its final description is whatever the editing
  session returned (lines 143-159);
* second commit: in parallel mode its tree is
  `end_tree.merge(selected_tree, base_tree)` and its parents are the
  target's parents, otherwise its tree is the end tree and its sole
  parent is the first commit; it always gets a freshly generated change
  id; it is given an empty description without an editing session when
  the target's description was empty (lines 163-200);
* rewrite records: writing the first commit records target → first
  because the change id is preserved, writing the second does not record
  anything because its change id is fresh (Commit Rewriter bookkeeping,
  modelled from spec §4.2); with the legacy bookmark behavior a record
  target → second is then registered explicitly (lines 202-209);
* the cascade rebases every descendant (lines 210-225);
* every workspace of the pre-transaction view whose working-copy pointer
  is the target is redirected to the second commit (lines 226-232). -/
def splitOutcome (env : SplitEnv) : SplitOutcome :=
  let target := env.target
  let selectedTreeId := env.selectedTree
  let warnings :=
    if selectedTreeId = target.tree then [Warning.secondWillBeEmpty]
    else if selectedTreeId = env.baseTree then [Warning.firstWillBeEmpty]
    else []
  let firstCommit : Commit :=
    { id := env.freshFirstId, parents := target.parents, tree := selectedTreeId,
      changeId := target.changeId, description := env.firstDescEdited }
  let newTree := if env.parallel then env.mergeFn target.tree selectedTreeId env.baseTree
    else target.tree
  let secondParents := if env.parallel then target.parents else [firstCommit.id]
  let secondDescription := if target.description = "" then "" else env.secondDescEdited
  let secondCommit : Commit :=
    { id := env.freshSecondId, parents := secondParents, tree := newTree,
      changeId := env.freshChangeId, description := secondDescription }
  let m0 : Remap := [(target.id, [firstCommit.id])]
  let leg := env.legacyBookmarkBehavior
  let m1 : Remap := if leg then (target.id, [secondCommit.id]) :: m0 else m0
  let cascadeOut :=
    runCascade env.parallel leg firstCommit.id secondCommit.id m1
      (env.descendants.zip env.freshDescIds)
  let rebased := cascadeOut.1
  let wcAfter := env.wcCommitIds.map fun q =>
    if q.2 = target.id then (q.1, secondCommit.id) else q
  let wcEvents := (env.wcCommitIds.filter fun q => q.2 == target.id).map fun q =>
    Event.editWorkingCopy q.1 secondCommit.id
  let events :=
    [Event.writeCommit firstCommit.id, Event.writeCommit secondCommit.id]
      ++ (if leg then [Event.setRewritten target.id secondCommit.id] else [])
      ++ rebased.map (fun q => Event.rebaseDescendant q.1.id q.2.id)
      ++ wcEvents ++ [Event.finishTx]
  { first := firstCommit, second := secondCommit, warnings := warnings,
    secondPromptIssued := if target.description = "" then false else true,
    rebased := rebased, numRebased := rebased.length, wcAfter := wcAfter,
    events := events }

/-- `cmd_split` (split.rs lines 80-246).  The fail-fast checks run in
source order before anything else: the empty-commit refusal with its
hint (lines 87-95, before the transaction starts), then
`check_rewritable` (line 97).  Once both pass, the rest of the command
is total given the environment and ends in `tx.finish`. -/
def cmd_split (env : SplitEnv) : Except CommandError SplitOutcome :=
  if env.target.tree = env.baseTree then
    Except.error (CommandError.userErrorWithHint
      ("Refusing to split empty commit " ++ toString env.target.id ++ ".")
      "Use `jj new` if you want to create another empty commit.")
  else if env.rewritable then Except.ok (splitOutcome env)
  else Except.error (CommandError.userError "Commit is immutable")

/-- Persisted repository state relevant to the split claims: the stored
commits and the per-workspace working-copy pointers. -/
structure RepoState where
  commits : List Commit
  wcPointers : List (WorkspaceId × CommitId)
deriving DecidableEq

/-- Applying a finished split transaction to the repository: the new
commits are appended to the store and the working-copy pointers are
replaced by the redirected ones. -/
def applyOutcome (s : RepoState) (o : SplitOutcome) : RepoState :=
  { commits := o.first :: o.second :: (o.rebased.map Prod.snd ++ s.commits),
    wcPointers := o.wcAfter }

/-- Transactional semantics of the command (spec §4.4): on success the
outcome atomically becomes the new repository state, on any error
nothing is persisted. -/
def splitRepo (s : RepoState) (env : SplitEnv) : RepoState :=
  match cmd_split env with
  | Except.error _ => s
  | Except.ok o => applyOutcome s o

/-- Result of one `git config` invocation as `colocate.rs` distinguishes
them: the process ran and succeeded, the process ran and failed with
some (already trimmed) stderr, or the process could not be run. -/
inductive GitConfigResult where
  | success
  | failure (stderr : String)
  | execError (e : IoErr)
deriving DecidableEq

/-- Filesystem-level operations the colocation commands attempt, in the
order they attempt them. -/
inductive FsAction where
  | writeFile (path contents : String)
  | moveDir (src dst : String)
  | removeFile (path : String)
  | gitConfigUnsetBare
  | gitConfigSetBare
  | snapshot
deriving DecidableEq

/-- Environment of the colocation commands: the colocation predicate of
the workspace, the filesystem predicates the commands test, and the
result of every fallible external operation (`none` meaning success for
the `std::fs` calls). -/
structure ColocateEnv where
  isColocated : Bool
  dotGitExists : Bool
  jjRepoIsFile : Bool
  gitStoreExists : Bool
  gitignoreExists : Bool
  writeGitignoreResult : Option IoErr
  writeGitTargetResult : Option IoErr
  removeGitTargetResult : Option IoErr
  removeGitignoreResult : Option IoErr
  moveGitStoreResult : Option IoErr
  moveGitToStoreResult : Option IoErr
  gitConfigUnsetBare : GitConfigResult
  gitConfigSetBare : GitConfigResult
  snapshotResult : Option CommandError
deriving DecidableEq

deriving instance DecidableEq for Except

/-- Output of a colocation command: its `Result`, the filesystem
operations it attempted (in order), and the status messages it printed. -/
structure ColocateOutput where
  result : Except CommandError Unit
  actions : List FsAction
  messages : List String
deriving DecidableEq

/-- `enable_repository_colocation` (colocate.rs lines 88-181), in source
order: the already-colocated early return, the three precondition
checks, writing `.jj/.gitignore`, writing the `git_target` pointer file,
moving the git store to the workspace root — on failure of the move the
half-written `git_target` file is removed with `let _ = ...`, i.e. the
removal's own result is discarded and the reported error is the move
failure — then `git config --unset core.bare` and the snapshot. -/
def enable_repository_colocation (env : ColocateEnv) : ColocateOutput :=
  if env.isColocated then
    { result := Except.ok (), actions := [],
      messages := ["Repository is already co-located with Git."] }
  else if env.dotGitExists then
    { result := Except.error (CommandError.userError
        "A .git directory already exists in the workspace root. Cannot co-locate."),
      actions := [], messages := [] }
  else if env.jjRepoIsFile then
    { result := Except.error (CommandError.userError "Cannot co-locate a Jujutsu workspace."),
      actions := [], messages := [] }
  else if !env.gitStoreExists then
    { result := Except.error (CommandError.userError
        "git store not found. This repository might not be using the git back-end."),
      actions := [], messages := [] }
  else
    let a1 := [FsAction.writeFile ".jj/.gitignore" "/*\n"]
    match env.writeGitignoreResult with
    | some e =>
      { result := Except.error (CommandError.userErrorWithMessage
          "Failed to create .jj/.gitignore file." e),
        actions := a1, messages := [] }
    | none =>
      let a2 := a1 ++ [FsAction.writeFile ".jj/repo/store/git_target" "../../../.git"]
      match env.writeGitTargetResult with
      | some e =>
        { result := Except.error (CommandError.userErrorWithMessage
            "Failed to create git_target file." e),
          actions := a2, messages := [] }
      | none =>
        let a3 := a2 ++ [FsAction.moveDir ".jj/repo/store/git" ".git"]
        match env.moveGitStoreResult with
        | some e =>
          { result := Except.error (CommandError.userErrorWithMessage
              "Failed to move git repository from .jj/repo/store/git to repository root directory."
              e),
            actions := a3 ++ [FsAction.removeFile ".jj/repo/store/git_target"],
            messages := [] }
        | none =>
          let a4 := a3 ++ [FsAction.gitConfigUnsetBare]
          match env.gitConfigUnsetBare with
          | GitConfigResult.failure stderr =>
            { result := Except.error (CommandError.userErrorWithMessage
                "Failed to unset core.bare in git config."
                ("git config failed: " ++ stderr)),
              actions := a4, messages := [] }
          | GitConfigResult.execError e =>
            { result := Except.error (CommandError.userErrorWithMessage
                "Failed to run git config command to unset core.bare." e),
              actions := a4, messages := [] }
          | GitConfigResult.success =>
            let a5 := a4 ++ [FsAction.snapshot]
            match env.snapshotResult with
            | some e => { result := Except.error e, actions := a5, messages := [] }
            | none =>
              { result := Except.ok (), actions := a5,
                messages :=
                  ["Repository successfully converted into a co-located Jujutsu/git repository."] }

/-- `disable_repository_colocation` (colocate.rs lines 183-255), in
source order: the already-not-colocated early return, the two
precondition checks, `git config core.bare true`, moving `.git` into the
store, updating the `git_target` pointer file, and removing the
`.jj/.gitignore` file when it exists. -/
def disable_repository_colocation (env : ColocateEnv) : ColocateOutput :=
  if !env.isColocated then
    { result := Except.ok (), actions := [],
      messages := ["Repository is already not co-located with Git."] }
  else if !env.dotGitExists then
    { result := Except.error (CommandError.userError "No .git directory found in workspace root."),
      actions := [], messages := [] }
  else if env.gitStoreExists then
    { result := Except.error (CommandError.userError
        "git store already exists at .jj/repo/store/git. Cannot disable co-location."),
      actions := [], messages := [] }
  else
    let a1 := [FsAction.gitConfigSetBare]
    match env.gitConfigSetBare with
    | GitConfigResult.execError e =>
      { result := Except.error (CommandError.userErrorWithMessage
          "Failed to run git config command to set core.bare." e),
        actions := a1, messages := [] }
    | GitConfigResult.failure stderr =>
      { result := Except.error (CommandError.userErrorWithMessage
          "Failed to set core.bare in git config." ("git config failed: " ++ stderr)),
        actions := a1, messages := [] }
    | GitConfigResult.success =>
      let a2 := a1 ++ [FsAction.moveDir ".git" ".jj/repo/store/git"]
      match env.moveGitToStoreResult with
      | some e =>
        { result := Except.error (CommandError.userErrorWithMessage
            "Failed to move git repository to .jj/repo/store/git" e),
          actions := a2, messages := [] }
      | none =>
        let a3 := a2 ++ [FsAction.writeFile ".jj/repo/store/git_target" "git"]
        match env.writeGitTargetResult with
        | some e =>
          { result := Except.error (CommandError.userErrorWithMessage
              "Failed to update git_target file." e),
            actions := a3, messages := [] }
        | none =>
          if env.gitignoreExists then
            let a4 := a3 ++ [FsAction.removeFile ".jj/.gitignore"]
            match env.removeGitignoreResult with
            | some e =>
              { result := Except.error (CommandError.userErrorWithMessage
                  "Failed to remove .jj/.gitignore file." e),
                actions := a4, messages := [] }
            | none =>
              { result := Except.ok (), actions := a4,
                messages :=
                  ["Repository successfully converted into a non co-located regular Jujutsu repository."] }
          else
            { result := Except.ok (), actions := a3,
              messages :=
                ["Repository successfully converted into a non co-located regular Jujutsu repository."] }

/-- Recognizer for cascade (descendant rebase) events. -/
def isRebaseEvent : Event → Bool
  | Event.rebaseDescendant _ _ => true
  | _ => false

/-- Recognizer for rewrite-record registration events. -/
def isSetRewrittenEvent : Event → Bool
  | Event.setRewritten _ _ => true
  | _ => false

/-- Concrete split environment used by the witnesses: a non-empty target
commit (tree 5, parent tree 3) with one child commit, two workspaces of
which one has the target checked out, and explicit collaborator
results. -/
def envW (par leg : Bool) : SplitEnv :=
  { target := { id := 10, parents := [1], tree := 5, changeId := 100, description := "orig" }
    baseTree := 3
    rewritable := true
    selectedTree := 4
    mergeFn := fun a b c => 1000 + a * 100 + b * 10 + c
    defaultDescription := "default description"
    firstDescEdited := "first description"
    secondDescEdited := "second description"
    parallel := par
    legacyBookmarkBehavior := leg
    freshFirstId := 20
    freshSecondId := 21
    freshChangeId := 200
    descendants := [{ id := 11, parents := [10], tree := 7, changeId := 101, description := "child" }]
    freshDescIds := [30]
    wcCommitIds := [("default", 10), ("other", 2)] }

/-- The single descendant of the witness environment's target. -/
def childW : Commit := { id := 11, parents := [10], tree := 7, changeId := 101, description := "child" }

/-- The rewritten form of `childW` produced by a parallel legacy split of
the witness environment. -/
def childRebasedW : Commit :=
  { id := 30, parents := [20, 21], tree := 7, changeId := 101, description := "child" }

/-- Witness environment for the empty-commit claim: the target's tree
equals its parent tree. -/
def envEmptyW : SplitEnv :=
  { envW false false with
    target := { id := 10, parents := [1], tree := 3, changeId := 100, description := "orig" } }

/-- Witness environment with a target commit carrying no description. -/
def envNoDescW : SplitEnv :=
  { envW false false with
    target := { id := 10, parents := [1], tree := 5, changeId := 100, description := "" } }

/-- Witness environment in which the user selected the whole end tree. -/
def envSelAllW : SplitEnv :=
  { envW false false with selectedTree := 5 }

/-- Witness repository state. -/
def repoW : RepoState :=
  { commits := [{ id := 10, parents := [1], tree := 5, changeId := 100, description := "orig" }],
    wcPointers := [("default", 10)] }

/-- Concrete colocation environment used by the counterexample and the
witnesses: a convertible non-colocated repository in which moving the
git store directory fails, while the best-effort cleanup removal
succeeds. -/
def colocEnvBase : ColocateEnv :=
  { isColocated := false
    dotGitExists := false
    jjRepoIsFile := false
    gitStoreExists := true
    gitignoreExists := false
    writeGitignoreResult := none
    writeGitTargetResult := none
    removeGitTargetResult := none
    removeGitignoreResult := none
    moveGitStoreResult := some "permission denied while moving directory"
    moveGitToStoreResult := none
    gitConfigUnsetBare := GitConfigResult.success
    gitConfigSetBare := GitConfigResult.success
    snapshotResult := none }

/-- Same environment except that the best-effort cleanup removal of the
half-written `git_target` file fails as well. -/
def colocEnvCleanupFails : ColocateEnv :=
  { colocEnvBase with removeGitTargetResult := some "permission denied while removing git_target" }

/-- Already-colocated variant of the base colocation environment. -/
def colocEnvAlready : ColocateEnv :=
  { colocEnvBase with isColocated := true }

/-! ## Helper lemmas about the cascade -/

theorem replaceParent_append (l1 l2 : List CommitId) (oldP : CommitId) (news : List CommitId) :
    replaceParent (l1 ++ l2) oldP news = replaceParent l1 oldP news ++ replaceParent l2 oldP news := by
  simp [replaceParent]

theorem applyReplace_append (par leg : Bool) (f s : CommitId) (l1 l2 : List CommitId) :
    applyReplace par leg f s (l1 ++ l2)
      = applyReplace par leg f s l1 ++ applyReplace par leg f s l2 := by
  cases par <;> cases leg <;> simp [applyReplace, replaceParent_append]

/-- Evaluating one cascade visit on a commit whose only rewritten parent
is the split target: the mapped-then-replaced parent list substitutes the
target by `[f, s]` in parallel mode and by `[s]` otherwise, and keeps
every other parent, whatever the legacy flag is. -/
theorem newParentsFor_spec (par leg : Bool) (f s tid : CommitId) (m : Remap)
    (hm : remapLookup m tid = some [if leg then s else f]) :
    ∀ ps : List CommitId, (∀ p ∈ ps, p ≠ tid → remapLookup m p = none) → f ∉ ps → s ∉ ps →
      newParentsFor par leg f s m ps
        = ps.flatMap fun p => if p = tid then (if par then [f, s] else [s]) else [p] := by
  intro ps
  induction ps with
  | nil =>
    intro _ _ _
    cases par <;> cases leg <;> simp [newParentsFor, mapParents, applyReplace, replaceParent]
  | cons a ps ih =>
    intro hnone hf hs
    have hf2 : f ∉ ps := fun h => hf (List.mem_cons_of_mem a h)
    have hs2 : s ∉ ps := fun h => hs (List.mem_cons_of_mem a h)
    have hn2 : ∀ p ∈ ps, p ≠ tid → remapLookup m p = none :=
      fun p hp => hnone p (List.mem_cons_of_mem a hp)
    have hrec := ih hn2 hf2 hs2
    have step : newParentsFor par leg f s m (a :: ps)
        = applyReplace par leg f s ((remapLookup m a).getD [a]) ++ newParentsFor par leg f s m ps := by
      simp only [newParentsFor, mapParents, List.flatMap_cons, applyReplace_append]
    rw [step, hrec, List.flatMap_cons]
    congr 1
    by_cases ha : a = tid
    · subst ha
      rw [hm, if_pos rfl]
      cases par <;> cases leg <;> simp [applyReplace, replaceParent]
    · have haf : a ≠ f := by
        intro h
        exact hf (h ▸ List.mem_cons_self a ps)
      have has : a ≠ s := by
        intro h
        exact hs (h ▸ List.mem_cons_self a ps)
      rw [hnone a (List.mem_cons_self a ps) ha, if_neg ha]
      cases par <;> cases leg <;>
        simp [applyReplace, replaceParent, Option.getD, if_neg haf, if_neg has]

/-- Membership form of the cascade: any visited commit whose parents
other than the split target are untouched by the rewrite records (they
are neither earlier cascade outputs nor the target) is rewritten to the
parent list given by substituting the target commit. -/
theorem runCascade_parents (par leg : Bool) (f s tid : CommitId) :
    ∀ (ds : List (Commit × CommitId)) (m : Remap) (c c2 : Commit),
      (c, c2) ∈ (runCascade par leg f s m ds).1 →
      remapLookup m tid = some [if leg then s else f] →
      (∀ p ∈ c.parents, p ≠ tid → remapLookup m p = none) →
      (∀ p ∈ c.parents, p ≠ tid → p ∉ ds.map fun q => q.1.id) →
      tid ∉ ds.map (fun q => q.1.id) →
      f ∉ c.parents → s ∉ c.parents →
      c2.parents = c.parents.flatMap fun p =>
        if p = tid then (if par then [f, s] else [s]) else [p] := by
  intro ds
  induction ds with
  | nil =>
    intro m c c2 hmem
    simp [runCascade] at hmem
  | cons dn rest ih =>
    obtain ⟨d, nid⟩ := dn
    intro m c c2 hmem hm hnone hnods htid hf hs
    have htid2 : tid ∉ d.id :: rest.map (fun q => q.1.id) := htid
    have htd : tid ≠ d.id := fun h => htid2 (List.mem_cons.2 (Or.inl h))
    have htrest : tid ∉ rest.map (fun q => q.1.id) :=
      fun h => htid2 (List.mem_cons.2 (Or.inr h))
    have hmem2 : (c, c2) = (d, cascadeRewrite par leg f s m d nid) ∨
        (c, c2) ∈ (runCascade par leg f s ((d.id, [nid]) :: m) rest).1 := by
      simpa [runCascade, cascadeRewrite] using hmem
    rcases hmem2 with heq | hmem2
    · injection heq with h1 h2
      subst h1
      subst h2
      simp only [cascadeRewrite]
      exact newParentsFor_spec par leg f s tid m hm c.parents hnone hf hs
    · apply ih ((d.id, [nid]) :: m) c c2 hmem2
      · rw [remapLookup, if_neg htd]
        exact hm
      · intro p hp hptid
        have hpcons : p ∉ d.id :: rest.map (fun q => q.1.id) := hnods p hp hptid
        have hpd : p ≠ d.id := fun h => hpcons (List.mem_cons.2 (Or.inl h))
        rw [remapLookup, if_neg hpd]
        exact hnone p hp hptid
      · intro p hp hptid
        have hpcons : p ∉ d.id :: rest.map (fun q => q.1.id) := hnods p hp hptid
        exact fun h => hpcons (List.mem_cons.2 (Or.inr h))
      · exact htrest
      · exact hf
      · exact hs

/-- If a commit id is among the ids of the zipped descendant list, it is
among the ids of the descendant list itself. -/
theorem zip_ids_subset (l1 : List Commit) (l2 : List CommitId) (x : CommitId) :
    x ∈ ((l1.zip l2).map fun q => q.1.id) → x ∈ l1.map Commit.id := by
  intro hx
  rcases List.mem_map.1 hx with ⟨q, hq, hqe⟩
  obtain ⟨q1, q2⟩ := q
  rcases List.of_mem_zip hq with ⟨h1, _⟩
  exact List.mem_map.2 ⟨q1, h1, hqe⟩

/-- An `Except.ok` result of `cmd_split` is the outcome of the main body:
both fail-fast checks passed. -/
theorem cmd_split_ok_elim (env : SplitEnv) (o : SplitOutcome)
    (hok : cmd_split env = Except.ok o) : o = splitOutcome env := by
  unfold cmd_split at hok
  by_cases h1 : env.target.tree = env.baseTree
  · rw [if_pos h1] at hok
    exact Except.noConfusion hok
  · rw [if_neg h1] at hok
    by_cases h2 : env.rewritable = true
    · rw [if_pos h2] at hok
      injection hok with h
      exact h.symm
    · rw [if_neg h2] at hok
      exact Except.noConfusion hok

/-! ## Claim theorems -/

/-- C1: For every split of a commit with descendants, the cascade
re-parents each descendant of the original commit (any visited commit
whose only rewritten parent is the original commit) according to the two
flags: when `parallel` is false — regardless of
`legacy_bookmark_behavior` — the old parent edge is replaced by
`[second_commit]` only; when `parallel` is true and the legacy behavior
is off it is replaced by `[first_commit, second_commit]`; when
`parallel` is true and the legacy behavior is on, the replacement is
anchored on the second commit (the old commit having been
pre-registered as rewritten to the second commit) and likewise yields
parents `[first_commit, second_commit]`. -/
theorem split_cascade_reparents_descendants (env : SplitEnv) (o : SplitOutcome)
    (hok : cmd_split env = Except.ok o) (c c2 : Commit)
    (hmem : (c, c2) ∈ o.rebased)
    (hother : ∀ p ∈ c.parents, p ≠ env.target.id → p ∉ env.descendants.map Commit.id)
    (htid : env.target.id ∉ env.descendants.map Commit.id)
    (hf : env.freshFirstId ∉ c.parents) (hs : env.freshSecondId ∉ c.parents) :
    c2.parents = c.parents.flatMap fun p =>
      if p = env.target.id then
        (if env.parallel then [o.first.id, o.second.id] else [o.second.id])
      else [p] := by
  have ho := cmd_split_ok_elim env o hok
  subst ho
  have hfid : (splitOutcome env).first.id = env.freshFirstId := rfl
  have hsid : (splitOutcome env).second.id = env.freshSecondId := rfl
  rw [hfid, hsid]
  have hreb : (splitOutcome env).rebased =
      (runCascade env.parallel env.legacyBookmarkBehavior env.freshFirstId env.freshSecondId
        (if env.legacyBookmarkBehavior then
          (env.target.id, [env.freshSecondId]) :: [(env.target.id, [env.freshFirstId])]
          else [(env.target.id, [env.freshFirstId])])
        (env.descendants.zip env.freshDescIds)).1 := rfl
  rw [hreb] at hmem
  apply runCascade_parents env.parallel env.legacyBookmarkBehavior env.freshFirstId
    env.freshSecondId env.target.id (env.descendants.zip env.freshDescIds) _ c c2 hmem
  · cases hleg : env.legacyBookmarkBehavior <;> simp [hleg, remapLookup]
  · intro p hp hptid
    cases hleg : env.legacyBookmarkBehavior <;> simp [hleg, remapLookup, hptid]
  · intro p hp hptid h
    exact hother p hp hptid (zip_ids_subset _ _ _ h)
  · intro h
    exact htid (zip_ids_subset _ _ _ h)
  · exact hf
  · exact hs

/-- Witness for C1: in the concrete environment, a parallel split with
the legacy behavior on rewrites the target's single child to have
parents `[first, second]` = `[20, 21]`. -/
theorem split_cascade_reparents_descendants_witness :
    (childW, childRebasedW) ∈ (splitOutcome (envW true true)).rebased ∧
      childRebasedW.parents = [20, 21] := by
  have hmem : (childW, childRebasedW) ∈ (splitOutcome (envW true true)).rebased := by decide
  have h := split_cascade_reparents_descendants (envW true true) (splitOutcome (envW true true))
    (by decide) childW childRebasedW hmem (by decide) (by decide) (by decide) (by decide)
  exact ⟨hmem, h.trans (by decide)⟩

/-- C2: For every split in parallel mode, the second commit's tree is the
three-way merge `merge(end_tree, selected_tree, base_tree)` and its
parents are the original commit's parents; in non-parallel mode its tree
is the original end tree and its sole parent is the first commit. -/
theorem split_second_commit_tree_and_parents (env : SplitEnv) (o : SplitOutcome)
    (hok : cmd_split env = Except.ok o) :
    (env.parallel = true →
      o.second.tree = env.mergeFn env.target.tree env.selectedTree env.baseTree ∧
      o.second.parents = env.target.parents) ∧
    (env.parallel = false →
      o.second.tree = env.target.tree ∧ o.second.parents = [o.first.id]) := by
  have ho := cmd_split_ok_elim env o hok
  subst ho
  constructor
  · intro hp
    constructor <;> simp [splitOutcome, hp]
  · intro hp
    constructor <;> simp [splitOutcome, hp]

/-- Witness for C2 at a concrete parallel split. -/
theorem split_second_commit_tree_and_parents_witness :
    (splitOutcome (envW true false)).second.tree = (envW true false).mergeFn 5 4 3 ∧
    (splitOutcome (envW true false)).second.parents = [1] := by
  have h := (split_second_commit_tree_and_parents (envW true false)
    (splitOutcome (envW true false)) (by decide)).1 rfl
  exact ⟨h.1, h.2⟩

/-- C3: Splitting a commit whose tree equals the tree of its first
parent (an empty commit) fails with a user error hinting at `jj new`,
and the failure occurs before any mutation: the repository state is
unchanged. -/
theorem split_empty_commit_fails_unchanged (env : SplitEnv)
    (hempty : env.target.tree = env.baseTree) :
    cmd_split env = Except.error (CommandError.userErrorWithHint
      ("Refusing to split empty commit " ++ toString env.target.id ++ ".")
      "Use `jj new` if you want to create another empty commit.") ∧
    ∀ s : RepoState, splitRepo s env = s := by
  constructor
  · simp [cmd_split, hempty]
  · intro s
    simp [splitRepo, cmd_split, hempty]

/-- Witness for C3 on a concrete empty commit and repository state. -/
theorem split_empty_commit_fails_unchanged_witness :
    cmd_split envEmptyW = Except.error (CommandError.userErrorWithHint
      "Refusing to split empty commit 10."
      "Use `jj new` if you want to create another empty commit.") ∧
    splitRepo repoW envEmptyW = repoW := by
  have h := split_empty_commit_fails_unchanged envEmptyW (by decide)
  exact ⟨h.1.trans (by decide), h.2 repoW⟩

/-- C4: The second commit always receives the freshly minted change
identity while the first commit keeps the original one (in particular in
non-parallel mode only the second commit gets a fresh identity), so the
two new commits never share a change identity. -/
theorem split_fresh_change_id (env : SplitEnv) (o : SplitOutcome)
    (hok : cmd_split env = Except.ok o)
    (hfresh : env.freshChangeId ≠ env.target.changeId) :
    o.second.changeId = env.freshChangeId ∧
    o.first.changeId = env.target.changeId ∧
    o.second.changeId ≠ o.first.changeId := by
  have ho := cmd_split_ok_elim env o hok
  subst ho
  exact ⟨rfl, rfl, hfresh⟩

/-- Witness for C4 at a concrete non-parallel split. -/
theorem split_fresh_change_id_witness :
    (splitOutcome (envW false false)).second.changeId = 200 ∧
    (splitOutcome (envW false false)).first.changeId = 100 ∧
    (splitOutcome (envW false false)).second.changeId ≠
      (splitOutcome (envW false false)).first.changeId :=
  split_fresh_change_id (envW false false) (splitOutcome (envW false false))
    (by decide) (by decide)

/-- C5: With the legacy bookmark behavior enabled, the rewrite record
mapping the original commit to the second commit is registered strictly
before the descendant cascade runs: it appears in the event log before
any rebase event.  With the behavior disabled no rewrite record is
registered at all. -/
theorem split_legacy_rewrite_record_order (env : SplitEnv) (o : SplitOutcome)
    (hok : cmd_split env = Except.ok o) :
    (env.legacyBookmarkBehavior = true →
      Event.setRewritten env.target.id o.second.id ∈
        (o.events.takeWhile fun e => !isRebaseEvent e)) ∧
    (env.legacyBookmarkBehavior = false →
      ∀ a b : CommitId, Event.setRewritten a b ∉ o.events) := by
  have ho := cmd_split_ok_elim env o hok
  subst ho
  constructor
  · intro hleg
    simp [splitOutcome, hleg, List.takeWhile_cons, isRebaseEvent]
  · intro hleg a b hmem
    simp [splitOutcome, hleg] at hmem

/-- Witness for C5: with legacy behavior the record event precedes any
rebase event; without it no record event occurs. -/
theorem split_legacy_rewrite_record_order_witness :
    Event.setRewritten 10 21 ∈
      ((splitOutcome (envW true true)).events.takeWhile fun e => !isRebaseEvent e) ∧
    Event.setRewritten 10 21 ∉ (splitOutcome (envW true false)).events := by
  constructor
  · exact (split_legacy_rewrite_record_order (envW true true)
      (splitOutcome (envW true true)) (by decide)).1 rfl
  · exact (split_legacy_rewrite_record_order (envW true false)
      (splitOutcome (envW true false)) (by decide)).2 rfl 10 21

/-- C6: After a split, every workspace of the pre-transaction view whose
working-copy pointer equals the original commit is redirected to the
second commit, and every other workspace pointer is left unchanged (the
final pointer list is exactly the pointwise redirection of the
pre-transaction one). -/
theorem split_redirects_working_copies (env : SplitEnv) (o : SplitOutcome)
    (hok : cmd_split env = Except.ok o) :
    (∀ ws cid, (ws, cid) ∈ env.wcCommitIds →
      (ws, if cid = env.target.id then o.second.id else cid) ∈ o.wcAfter) ∧
    (∀ ws cid2, (ws, cid2) ∈ o.wcAfter →
      ∃ cid, (ws, cid) ∈ env.wcCommitIds ∧
        cid2 = if cid = env.target.id then o.second.id else cid) := by
  have ho := cmd_split_ok_elim env o hok
  subst ho
  have heq : (splitOutcome env).wcAfter = env.wcCommitIds.map fun q =>
      if q.2 = env.target.id then (q.1, env.freshSecondId) else q := rfl
  constructor
  · intro ws cid hmem
    rw [heq]
    apply List.mem_map.2
    refine ⟨(ws, cid), hmem, ?_⟩
    by_cases h : cid = env.target.id
    · simp [h]
      rfl
    · simp [h]
  · intro ws cid2 hmem
    rw [heq] at hmem
    rcases List.mem_map.1 hmem with ⟨⟨ws0, cid0⟩, hq, himg⟩
    by_cases h : cid0 = env.target.id
    · rw [if_pos h] at himg
      injection himg with h1 h2
      subst h1
      subst h2
      refine ⟨cid0, hq, ?_⟩
      rw [if_pos h]
      rfl
    · rw [if_neg h] at himg
      injection himg with h1 h2
      subst h1
      subst h2
      exact ⟨cid0, hq, by rw [if_neg h]⟩

/-- Witness for C6: the workspace checked out on the target moves to the
second commit (id 21); the other workspace keeps its pointer. -/
theorem split_redirects_working_copies_witness :
    ("default", 21) ∈ (splitOutcome (envW false false)).wcAfter ∧
    ("other", 2) ∈ (splitOutcome (envW false false)).wcAfter := by
  have h := (split_redirects_working_copies (envW false false)
    (splitOutcome (envW false false)) (by decide)).1
  constructor
  · exact h "default" 10 (by decide)
  · exact h "other" 2 (by decide)

/-- C7: When the user's selection equals the end tree a warning that the
second commit will be empty is emitted; when it equals the base tree a
warning that the first commit will be empty is emitted; in both cases
the split continues to completion rather than failing. -/
theorem split_selection_edge_warnings (env : SplitEnv)
    (hne : env.target.tree ≠ env.baseTree) (hrw : env.rewritable = true) :
    cmd_split env = Except.ok (splitOutcome env) ∧
    (env.selectedTree = env.target.tree →
      Warning.secondWillBeEmpty ∈ (splitOutcome env).warnings) ∧
    (env.selectedTree = env.baseTree →
      Warning.firstWillBeEmpty ∈ (splitOutcome env).warnings) := by
  refine ⟨?_, ?_, ?_⟩
  · simp [cmd_split, hne, hrw]
  · intro h
    simp [splitOutcome, h]
  · intro h
    have hbt : env.baseTree ≠ env.target.tree := fun hh => hne hh.symm
    simp [splitOutcome, h, hbt]

/-- Witness for C7: selecting everything still completes and warns that
the second commit will be empty. -/
theorem split_selection_edge_warnings_witness :
    cmd_split envSelAllW = Except.ok (splitOutcome envSelAllW) ∧
    Warning.secondWillBeEmpty ∈ (splitOutcome envSelAllW).warnings := by
  have h := split_selection_edge_warnings envSelAllW (by decide) rfl
  exact ⟨h.1, h.2.1 rfl⟩

/-- C8: The second commit's description comes from an editing session
only when the original description is non-empty; an originally empty
description yields an empty second description with no prompt. -/
theorem split_second_description_prompt (env : SplitEnv) (o : SplitOutcome)
    (hok : cmd_split env = Except.ok o) :
    (env.target.description = "" →
      o.second.description = "" ∧ o.secondPromptIssued = false) ∧
    (env.target.description ≠ "" →
      o.second.description = env.secondDescEdited ∧ o.secondPromptIssued = true) := by
  have ho := cmd_split_ok_elim env o hok
  subst ho
  constructor
  · intro h
    constructor <;> simp [splitOutcome, h]
  · intro h
    constructor <;> simp [splitOutcome, h]

/-- Witness for C8 on a described and an undescribed target commit. -/
theorem split_second_description_prompt_witness :
    (splitOutcome (envW false false)).second.description = "second description" ∧
    (splitOutcome (envW false false)).secondPromptIssued = true ∧
    (splitOutcome envNoDescW).second.description = "" ∧
    (splitOutcome envNoDescW).secondPromptIssued = false := by
  have h1 := (split_second_description_prompt (envW false false)
    (splitOutcome (envW false false)) (by decide)).2 (by decide)
  have h2 := (split_second_description_prompt envNoDescW
    (splitOutcome envNoDescW) (by decide)).1 rfl
  exact ⟨h1.1, h1.2, h2.1, h2.2⟩

/-- C9, counterexample: the claim that a failure of the best-effort
cleanup removal is itself reported is false.  At a concrete input where
the directory move fails, the command's entire output — result, action
log and messages — is identical whether the cleanup removal fails or
succeeds, so no failure of the removal is ever reported; the error the
user sees carries only the move failure. -/
theorem colocate_cleanup_failure_unreported_cex :
    enable_repository_colocation colocEnvCleanupFails
      = enable_repository_colocation colocEnvBase ∧
    colocEnvCleanupFails.removeGitTargetResult
      = some "permission denied while removing git_target" ∧
    colocEnvBase.removeGitTargetResult = none ∧
    (enable_repository_colocation colocEnvCleanupFails).result
      = Except.error (CommandError.userErrorWithMessage
          "Failed to move git repository from .jj/repo/store/git to repository root directory."
          "permission denied while moving directory") := by
  decide

/-- C9, amended: when enabling colocation, if moving the git store
directory fails after the `git_target` pointer file was written, the
half-written `git_target` file's removal is attempted as best-effort
cleanup, but a failure of that removal is silently ignored rather than
reported: the reported error is the move failure, and the output is
independent of the cleanup removal's result. -/
theorem colocate_cleanup_best_effort_silent (env : ColocateEnv) (e : IoErr)
    (h1 : env.isColocated = false) (h2 : env.dotGitExists = false)
    (h3 : env.jjRepoIsFile = false) (h4 : env.gitStoreExists = true)
    (h5 : env.writeGitignoreResult = none) (h6 : env.writeGitTargetResult = none)
    (h7 : env.moveGitStoreResult = some e) :
    FsAction.removeFile ".jj/repo/store/git_target"
      ∈ (enable_repository_colocation env).actions ∧
    (enable_repository_colocation env).result
      = Except.error (CommandError.userErrorWithMessage
          "Failed to move git repository from .jj/repo/store/git to repository root directory."
          e) ∧
    ∀ r : Option IoErr,
      enable_repository_colocation { env with removeGitTargetResult := r }
        = enable_repository_colocation env := by
  refine ⟨?_, ?_, ?_⟩
  · simp [enable_repository_colocation, h1, h2, h3, h4, h5, h6, h7]
  · simp [enable_repository_colocation, h1, h2, h3, h4, h5, h6, h7]
  · intro r
    simp [enable_repository_colocation, h1, h2, h3, h4, h5, h6, h7]

/-- Witness for the amended C9 at a concrete environment: the cleanup
removal is attempted, and the output with a failing removal equals the
output with a succeeding one. -/
theorem colocate_cleanup_best_effort_silent_witness :
    FsAction.removeFile ".jj/repo/store/git_target"
      ∈ (enable_repository_colocation colocEnvBase).actions ∧
    enable_repository_colocation colocEnvCleanupFails
      = enable_repository_colocation colocEnvBase := by
  have h := colocate_cleanup_best_effort_silent colocEnvBase
    "permission denied while moving directory" rfl rfl rfl rfl rfl rfl rfl
  exact ⟨h.1, h.2.2 (some "permission denied while removing git_target")⟩

/-- C10: Enabling colocation on an already co-located repository and
disabling it on an already non co-located repository both succeed after
printing a status message and attempt no filesystem operation, so both
commands are idempotent. -/
theorem colocate_enable_disable_idempotent (env1 env2 : ColocateEnv)
    (h1 : env1.isColocated = true) (h2 : env2.isColocated = false) :
    enable_repository_colocation env1 =
      { result := Except.ok (), actions := [],
        messages := ["Repository is already co-located with Git."] } ∧
    disable_repository_colocation env2 =
      { result := Except.ok (), actions := [],
        messages := ["Repository is already not co-located with Git."] } := by
  constructor
  · simp [enable_repository_colocation, h1]
  · simp [disable_repository_colocation, h2]

/-- Witness for C10 on concrete already-co-located and already-plain
environments. -/
theorem colocate_enable_disable_idempotent_witness :
    enable_repository_colocation colocEnvAlready =
      { result := Except.ok (), actions := [],
        messages := ["Repository is already co-located with Git."] } ∧
    disable_repository_colocation colocEnvBase =
      { result := Except.ok (), actions := [],
        messages := ["Repository is already not co-located with Git."] } :=
  colocate_enable_disable_idempotent colocEnvAlready colocEnvBase rfl rfl

end JJSpec
